import Mathlib

/-! Verification of the form-validation logic of a Django polling CMS:
the files `cms/polls/views/question.py`, `cms/polls/views/user.py` and
`cms/utils/forms.py`.

The Django error state of a form is modelled as an association list from
field names to lists of validation errors, mirroring `form._errors` (an
`ErrorDict` whose values are `ErrorList`s and whose keys are distinct).
`form.add_error(field, e)` appends `e` to the list stored under `field`,
creating the entry at the end when absent, as dict insertion does.
`len(form.errors)` is the number of keys of that dict.  Optional cleaned
values are `Option`s; Python truthiness of an optional bool or int is made
explicit.  A `ValidationError` carries its message template, optional code
and optional numeric parameter, as in Django. -/

set_option autoImplicit false

/-- A Django `ValidationError`: message template, optional error code,
optional numeric message parameter (the only parameter used here is
the `len` parameter). -/
structure VError where
  message : String
  code : Option String := none
  params : Option Nat := none
deriving DecidableEq, Repr

/-- Form error state: `form._errors`, a dict from field name to its
`ErrorList`. -/
abbrev Errors := List (String × List VError)

/-- Django's key for errors not attached to a particular field. -/
def NON_FIELD_ERRORS : String := "__all__"

/-- `form.add_error(field, e)`: append `e` to the list under `field`,
creating the entry (at the end, as dict insertion does) when absent. -/
def addError : Errors → String → VError → Errors
  | [], field, e => [(field, [e])]
  | (f, es) :: rest, field, e =>
    if f = field then (f, es ++ [e]) :: rest
    else (f, es) :: addError rest field e

/-- Dict lookup `errors.get(field)`. -/
def lookupField : Errors → String → Option (List VError)
  | [], _ => none
  | (f, es) :: rest, field => if f = field then some es else lookupField rest field

/-- Dict `errors.pop(field)`: remove the entry with that key. -/
def eraseKey : Errors → String → Errors
  | [], _ => []
  | (f, es) :: rest, field => if f = field then rest else (f, es) :: eraseKey rest field

/-- Python truthiness of an optional bool (`None` and `False` are falsy). -/
def truthyOptBool : Option Bool → Bool
  | none => false
  | some b => b

/-- Number of errors recorded under `field` that carry the given code. -/
def errCount (errs : Errors) (field : String) (code : Option String) : Nat :=
  ((lookupField errs field).getD []).countP (fun e => decide (e.code = code))

/-- The error `e` is present in the list recorded under `field`. -/
def memError (errs : Errors) (field : String) (e : VError) : Prop :=
  ∃ es, lookupField errs field = some es ∧ e ∈ es

/-! ### Cleaned data of a bound `QuestionForm`

`vote_start`/`vote_end` are datetimes, modelled as integer timestamps;
the remaining fields keep their Python types.  The three nested formsets
enter `QuestionForm.clean` only through `len(self.formsets['choices'])`
and each formset's `total_error_count()`, so the model records exactly
those numbers. -/

structure QuestionData where
  vote_start : Option Int
  vote_end : Option Int
  has_max_vote_count : Option Bool
  max_vote_count : Option Int
  total_vote_count : Option Int
  min_selection : Option Int
  max_selection : Option Int
  num_choices : Nat
  attachments_error_count : Nat
  q_followers_error_count : Nat
  choices_error_count : Nat
deriving DecidableEq, Repr

def vote_end_error : VError :=
  { message := "Ensure this time is later than the vote start date.",
    code := some "vote_end_too_early" }

def max_vote_count_required_error : VError :=
  { message := "This field is required.",
    code := some "max_vote_count_required" }

def max_vote_count_positive_error : VError :=
  { message := "Ensure this value is positive.",
    code := some "max_vote_count_positive" }

def max_selection_error : VError :=
  { message := "Ensure this value is greater than or equal to the min selection.",
    code := some "max_selection_too_small" }

def min_selection_error (len : Nat) : VError :=
  { message := "Ensure this value is less than or equal to the number of choices (%(len)s).",
    code := some "max_selection_too_small",
    params := some len }

def total_vote_count_error : VError :=
  { message := "Ensure total vote count is less than or equal to the max vote count.",
    code := some "total_vote_count_too_big" }

def aggregate_error (len : Nat) : VError :=
  { message := "Please correct the error(s) below (%(len)s total).",
    params := some len }

/-- `QuestionForm.check_vote_end`. -/
def check_vote_end (d : QuestionData) (errs : Errors) : Errors :=
  match d.vote_start, d.vote_end with
  | some vote_start, some vote_end =>
    if vote_start > vote_end then addError errs "vote_end" vote_end_error
    else errs
  | _, _ => errs

/-- `QuestionForm.check_max_vote_count`. -/
def check_max_vote_count (d : QuestionData) (errs : Errors) : Errors :=
  let errs1 :=
    if d.max_vote_count = none ∧ truthyOptBool d.has_max_vote_count then
      addError errs "max_vote_count" max_vote_count_required_error
    else errs
  match d.max_vote_count with
  | some max_vote_count =>
    if max_vote_count < 0 then
      addError errs1 "max_vote_count" max_vote_count_positive_error
    else errs1
  | none => errs1

/-- `QuestionForm.check_selection_bounds`. -/
def check_selection_bounds (d : QuestionData) (errs : Errors) : Errors :=
  let errs1 :=
    match d.min_selection, d.max_selection with
    | some min_selection, some max_selection =>
      if min_selection > max_selection then
        addError errs "max_selection" max_selection_error
      else errs
    | _, _ => errs
  match d.min_selection with
  | some min_selection =>
    if min_selection > (d.num_choices : Int) then
      addError errs1 "min_selection" (min_selection_error d.num_choices)
    else errs1
  | none => errs1

/-- `QuestionForm.check_total_vote_count`.  The Python guard
`if max_vote_count and total_vote_count > max_vote_count` short-circuits:
a `None` or zero `max_vote_count` skips the comparison; otherwise a `None`
`total_vote_count` makes the comparison raise `TypeError`, modelled as
`none`. -/
def check_total_vote_count (d : QuestionData) (errs : Errors) : Option Errors :=
  if ¬ truthyOptBool d.has_max_vote_count then some errs
  else
    match d.max_vote_count, d.total_vote_count with
    | some max_vote_count, some total_vote_count =>
      if max_vote_count ≠ 0 then
        if total_vote_count > max_vote_count then
          some (addError errs "max_vote_count" total_vote_count_error)
        else some errs
      else some errs
    | some max_vote_count, none =>
      if max_vote_count ≠ 0 then none else some errs
    | none, _ => some errs

/-- Sum of `formset.total_error_count()` over the three nested formsets
(`attachments`, `q_followers`, `choices`). -/
def formsets_total_error_count (d : QuestionData) : Nat :=
  d.attachments_error_count + d.q_followers_error_count + d.choices_error_count

/-! The checks above read their inputs into locals at entry, so each one,
taken alone, is a function of the cleaned data as it stands when the
check starts.  Across checks, however, `cleaned_data` is mutable: Django
`Form.add_error(field, e)` records the error and also deletes `field`
from `cleaned_data`, so a later `cleaned_data.get(field)` yields `None`.
The `_run` functions below thread that live state; each one's error
component is the corresponding snapshot check applied at its own entry
state. -/

/-- Deletion of a field from `cleaned_data` (`del self.cleaned_data[field]`
inside `Form.add_error`): afterwards `cleaned_data.get(field)` is `None`. -/
def del_cleaned (d : QuestionData) : String → QuestionData
  | "vote_start" => { d with vote_start := none }
  | "vote_end" => { d with vote_end := none }
  | "has_max_vote_count" => { d with has_max_vote_count := none }
  | "max_vote_count" => { d with max_vote_count := none }
  | "total_vote_count" => { d with total_vote_count := none }
  | "min_selection" => { d with min_selection := none }
  | "max_selection" => { d with max_selection := none }
  | _ => d

/-- `self.add_error(field, e)` on the question form: record the error
under `field` and delete `field` from `cleaned_data`. -/
def question_add_error (s : QuestionData × Errors) (field : String) (e : VError) :
    QuestionData × Errors :=
  (del_cleaned s.1 field, addError s.2 field e)

/-- `QuestionForm.check_vote_end` on the live form state. -/
def check_vote_end_run (s : QuestionData × Errors) : QuestionData × Errors :=
  match s.1.vote_start, s.1.vote_end with
  | some vote_start, some vote_end =>
    if vote_start > vote_end then question_add_error s "vote_end" vote_end_error
    else s
  | _, _ => s

/-- `QuestionForm.check_max_vote_count` on the live form state: both
branches use the local `max_vote_count` read at entry. -/
def check_max_vote_count_run (s : QuestionData × Errors) : QuestionData × Errors :=
  let s1 :=
    if s.1.max_vote_count = none ∧ truthyOptBool s.1.has_max_vote_count then
      question_add_error s "max_vote_count" max_vote_count_required_error
    else s
  match s.1.max_vote_count with
  | some max_vote_count =>
    if max_vote_count < 0 then
      question_add_error s1 "max_vote_count" max_vote_count_positive_error
    else s1
  | none => s1

/-- `QuestionForm.check_selection_bounds` on the live form state. -/
def check_selection_bounds_run (s : QuestionData × Errors) : QuestionData × Errors :=
  let s1 :=
    match s.1.min_selection, s.1.max_selection with
    | some min_selection, some max_selection =>
      if min_selection > max_selection then
        question_add_error s "max_selection" max_selection_error
      else s
    | _, _ => s
  match s.1.min_selection with
  | some min_selection =>
    if min_selection > (s.1.num_choices : Int) then
      question_add_error s1 "min_selection" (min_selection_error s.1.num_choices)
    else s1
  | none => s1

/-- `QuestionForm.check_total_vote_count` on the live form state; by the
time it runs, a negative `max_vote_count` has been deleted from
`cleaned_data` by `check_max_vote_count`, so it reads `None` there. -/
def check_total_vote_count_run (s : QuestionData × Errors) :
    Option (QuestionData × Errors) :=
  if ¬ truthyOptBool s.1.has_max_vote_count then some s
  else
    match s.1.max_vote_count, s.1.total_vote_count with
    | some max_vote_count, some total_vote_count =>
      if max_vote_count ≠ 0 then
        if total_vote_count > max_vote_count then
          some (question_add_error s "max_vote_count" total_vote_count_error)
        else some s
      else some s
    | some max_vote_count, none =>
      if max_vote_count ≠ 0 then none else some s
    | none, _ => some s

/-- The four related-field checks of `QuestionForm.clean`, in source
order, threading the live `cleaned_data` and error state from the state
`(d, errs)` left by base validation. -/
def question_check_all (d : QuestionData) (errs : Errors) :
    Option (QuestionData × Errors) :=
  check_total_vote_count_run
    (check_selection_bounds_run (check_max_vote_count_run (check_vote_end_run (d, errs))))

/-- `QuestionForm.clean`: run the four checks, then count
`len(self.errors)` (the number of fields with errors) plus every nested
formset's `total_error_count()`, and add one aggregate non-field error
when that count is positive. -/
def question_clean (d : QuestionData) (errs : Errors) : Option Errors :=
  match question_check_all d errs with
  | none => none
  | some s =>
    let error_count := s.2.length + formsets_total_error_count s.1
    if error_count > 0 then
      some (addError s.2 NON_FIELD_ERRORS (aggregate_error error_count))
    else some s.2

/-! ### The followers formset -/

/-- One child form of the followers formset: whether the formset would
delete it (`self._should_delete_form(form)`) and its
`cleaned_data.get('follower')` (a user primary key, `None` on bad or
missing input). -/
structure FollowerForm where
  marked_delete : Bool
  follower : Option Nat
deriving DecidableEq, Repr

/-- The loop of `QuestionFollowersFormSet.clean`: walk the forms,
skipping deleted ones when deletion is enabled, and report whether some
follower value repeats (the Python loop adds one error and breaks). -/
def followers_have_duplicate (can_delete : Bool) (seen : List (Option Nat)) :
    List FollowerForm → Bool
  | [] => false
  | f :: rest =>
    if can_delete && f.marked_delete then followers_have_duplicate can_delete seen rest
    else if f.follower ∈ seen then true
    else followers_have_duplicate can_delete (f.follower :: seen) rest

def duplicate_followers_error : VError :=
  { message := "Please correct the duplicate values below.",
    code := some "unique" }

/-- `QuestionFollowersFormSet.clean`, given the non-form error list the
formset had before (the base-class hook adds none).  On the duplicate
branch the source calls `self.add_error(NON_FIELD_ERRORS, ...)` with the
`unique`-coded error above, but `BaseFormSet`, `BaseModelFormSet` and
`BaseInlineFormSet` define no `add_error` method (it exists only on
`Form`), so that call raises `AttributeError`; the formset's
`full_clean` catches only `ValidationError` around `clean()`, so the
exception escapes uncaught — modelled as `none`.  With no duplicate
among the non-deleted forms the loop finishes and the non-form errors
are unchanged. -/
def qfollowers_clean (can_delete : Bool) (forms : List FollowerForm)
    (non_form_errors : List VError) : Option (List VError) :=
  if followers_have_duplicate can_delete [] forms then none
  else some non_form_errors

/-- Follower values of the forms not marked for deletion. -/
def nondeleted_followers (can_delete : Bool) (forms : List FollowerForm) :
    List (Option Nat) :=
  (forms.filter (fun f => !(can_delete && f.marked_delete))).map FollowerForm.follower

/-! ### `FormSetForm.full_clean` -/

/-- `FormSetForm.full_clean` after the base class has produced `errs`:
`if self._errors.get(self.parent_instance_field): self._errors.pop(...)`.
`errors.get(key)` is truthy exactly when the key holds a nonempty list. -/
def formsetform_full_clean (errs : Errors) (pif : String) : Errors :=
  match lookupField errs pif with
  | none => errs
  | some es => if es = [] then errs else eraseKey errs pif

/-! ### `MaxVoteCountForm.__init__` -/

/-- The widget attribute entries touched by `MaxVoteCountForm.__init__`;
a fresh widget has none of them set. -/
structure WidgetAttrs where
  data_reload_form : Bool := false
  required : Bool := false
  disabled : Bool := false
  value : Option String := none
deriving DecidableEq, Repr

/-- `FieldDataMixin.get_field_value`: the bound field value when the form
is bound, the initial value otherwise. -/
def get_field_value {α : Type} (is_bound : Bool)
    (bound_value initial_value : Option α) : Option α :=
  if is_bound then bound_value else initial_value

/-- `MaxVoteCountForm.__init__`: the attrs of the `has_max_vote_count`
widget and of the `max_vote_count` widget after construction.  The
checkbox value is a bool (possibly absent). -/
def max_vote_count_form_init (is_bound : Bool)
    (bound_value initial_value : Option Bool) : WidgetAttrs × WidgetAttrs :=
  let toggle := get_field_value is_bound bound_value initial_value
  let has_attrs : WidgetAttrs := { data_reload_form := true }
  let mvc_attrs : WidgetAttrs :=
    if truthyOptBool toggle then { required := true }
    else { disabled := true, value := some "" }
  (has_attrs, mvc_attrs)

/-! ### `UserFilter.filter_count_gte`

A queryset is a list of user primary keys; the relation rows under the
filtered name (`user_followed`) are given as the list of user primary
keys they belong to, so `Count(name)` for a user is the number of rows
naming it. -/

/-- `queryset.annotate(name_count=Count(name))` for one record. -/
def annotate_count (rel : List Nat) (user : Nat) : Nat := rel.count user

/-- `UserFilter.filter_count_gte`: keep the records whose annotated
related-count is at least `value`. -/
def filter_count_gte (rel : List Nat) (queryset : List Nat) (value : Int) :
    List Nat :=
  queryset.filter (fun user => decide ((annotate_count rel user : Int) ≥ value))

/-! ### `FileS3UploadField.clean`

URLs and settings strings are modelled as character lists. -/

/-- Python `s.split(sep, maxsplit=1)` restricted to what the code uses:
the pair of pieces around the first occurrence of `sep`, or `none` when
`sep` does not occur (so that indexing `[1]` would raise `IndexError`). -/
def findSplit (sep : List Char) : List Char → Option (List Char × List Char)
  | [] => if sep = [] then some ([], []) else none
  | c :: rest =>
    if sep.isPrefixOf (c :: rest) then some ([], (c :: rest).drop sep.length)
    else
      match findSplit sep rest with
      | some (a, b) => some (c :: a, b)
      | none => none

/-- `S3DIRECT_DESTINATIONS[self.dest]['key']` with a trailing slash
ensured (`if file_dir[-1] != '/': file_dir += '/'`). -/
def withSlash (dest_key : List Char) : List Char :=
  if dest_key.getLast? = some '/' then dest_key else dest_key ++ ['/']

/-- `FileS3UploadField.clean` after the base `URLField` cleaning returned
`url`: a falsy url yields `''`; otherwise the file name is extracted by
splitting on the bucket name and then on the destination directory,
taking element `[1]` each time.  `none` models an uncaught exception
(`IndexError` from a missing `[1]`, or indexing `file_dir[-1]` of an
empty destination key). -/
def s3_clean (url bucket dest_key : List Char) : Option (List Char) :=
  if url = [] then some []
  else if dest_key = [] then none
  else
    match findSplit bucket url with
    | none => none
    | some (_, rest) =>
      match findSplit (withSlash dest_key) rest with
      | none => none
      | some (_, file_name) => some file_name

/-! ### Lemmas about the error-dict operations -/

theorem lookupField_addError_self (errs : Errors) (f : String) (e : VError) :
    lookupField (addError errs f e) f = some ((lookupField errs f).getD [] ++ [e]) := by
  induction errs with
  | nil => simp [addError, lookupField]
  | cons p rest ih =>
    obtain ⟨g, es⟩ := p
    by_cases h : g = f
    · subst h; simp [addError, lookupField]
    · simp [addError, lookupField, h, ih]

theorem lookupField_addError_other (errs : Errors) (f : String) (e : VError)
    (g : String) (h : g ≠ f) :
    lookupField (addError errs f e) g = lookupField errs g := by
  induction errs with
  | nil => simp [addError, lookupField, Ne.symm h]
  | cons p rest ih =>
    obtain ⟨k, es⟩ := p
    by_cases hk : k = f
    · subst hk
      simp [addError, lookupField, Ne.symm h]
    · simp only [addError, if_neg hk]
      by_cases hg : k = g
      · simp [lookupField, hg]
      · simp [lookupField, hg, ih]

theorem errCount_addError_self (errs : Errors) (f : String) (e : VError)
    (c : Option String) :
    errCount (addError errs f e) f c
      = errCount errs f c + (if e.code = c then 1 else 0) := by
  by_cases h : e.code = c <;>
    simp [errCount, lookupField_addError_self, List.countP_append,
      List.countP_cons, h]

theorem errCount_addError_other (errs : Errors) (f : String) (e : VError)
    (g : String) (c : Option String) (h : g ≠ f) :
    errCount (addError errs f e) g c = errCount errs g c := by
  simp [errCount, lookupField_addError_other errs f e g h]

theorem lookupField_eq_none (errs : Errors) (k : String)
    (h : k ∉ errs.map Prod.fst) : lookupField errs k = none := by
  induction errs with
  | nil => rfl
  | cons p rest ih =>
    obtain ⟨g, es⟩ := p
    simp only [List.map_cons, List.mem_cons] at h
    push_neg at h
    simp [lookupField, Ne.symm h.1, ih h.2]

theorem lookupField_eraseKey_self (errs : Errors) (k : String)
    (hnd : (errs.map Prod.fst).Nodup) :
    lookupField (eraseKey errs k) k = none := by
  induction errs with
  | nil => rfl
  | cons p rest ih =>
    obtain ⟨g, es⟩ := p
    simp only [List.map_cons, List.nodup_cons] at hnd
    by_cases h : g = k
    · subst h
      simpa [eraseKey] using lookupField_eq_none rest g hnd.1
    · simp [eraseKey, lookupField, h, ih hnd.2]

theorem lookupField_eraseKey_other (errs : Errors) (k g : String) (h : g ≠ k) :
    lookupField (eraseKey errs k) g = lookupField errs g := by
  induction errs with
  | nil => rfl
  | cons p rest ih =>
    obtain ⟨f, es⟩ := p
    by_cases hf : f = k
    · subst hf
      simp [eraseKey, lookupField, Ne.symm h]
    · simp only [eraseKey, if_neg hf]
      by_cases hg : f = g
      · simp [lookupField, hg]
      · simp [lookupField, hg, ih]

theorem truthyOptBool_eq_true (o : Option Bool) :
    truthyOptBool o = true ↔ o = some true := by
  cases o with
  | none => simp [truthyOptBool]
  | some b => cases b <;> simp [truthyOptBool]

/-! ### Claim theorems: the related-field checks -/

/-- Claim C3: for every `QuestionForm` the clean step adds a field error to
`vote_end` with code `vote_end_too_early` exactly once when both cleaned
`vote_start` and `vote_end` are present and `vote_end` is strictly before
`vote_start`; when either value is absent, or `vote_start = vote_end` (or
any non-strict order), no such error is added. -/
theorem C3_check_vote_end (d : QuestionData) (errs : Errors) :
    errCount (check_vote_end d errs) "vote_end" (some "vote_end_too_early") =
      errCount errs "vote_end" (some "vote_end_too_early") +
        (match d.vote_start, d.vote_end with
         | some vote_start, some vote_end => if vote_end < vote_start then 1 else 0
         | _, _ => 0) := by
  rcases h1 : d.vote_start with _ | vs <;> rcases h2 : d.vote_end with _ | ve <;>
      simp only [check_vote_end, h1, h2] <;> try simp
  by_cases h : ve < vs
  · simp [gt_iff_lt, h, errCount_addError_self, vote_end_error]
  · simp [gt_iff_lt, h]

/-- Claim C7: the clean step adds the `This field is required.` error
(code `max_vote_count_required`) to `max_vote_count` if and only if the
cleaned `max_vote_count` is absent while `has_max_vote_count` is true,
and adds the `max_vote_count_positive` error exactly when a present
`max_vote_count` is negative; zero or more receives no such error. -/
theorem C7_check_max_vote_count (d : QuestionData) (errs : Errors) :
    errCount (check_max_vote_count d errs) "max_vote_count"
        (some "max_vote_count_required") =
      errCount errs "max_vote_count" (some "max_vote_count_required") +
        (if d.max_vote_count = none ∧ d.has_max_vote_count = some true then 1 else 0) ∧
    errCount (check_max_vote_count d errs) "max_vote_count"
        (some "max_vote_count_positive") =
      errCount errs "max_vote_count" (some "max_vote_count_positive") +
        (match d.max_vote_count with
         | some m => if m < 0 then 1 else 0
         | none => 0) := by
  cases hm : d.max_vote_count with
  | none =>
    by_cases hh : truthyOptBool d.has_max_vote_count
    · have hht := (truthyOptBool_eq_true _).mp hh
      constructor
      · simp [check_max_vote_count, hm, hh, hht, truthyOptBool,
          errCount_addError_self, max_vote_count_required_error]
      · simp [check_max_vote_count, hm, hh, truthyOptBool, hht,
          errCount_addError_self, max_vote_count_required_error]
    · have hht : d.has_max_vote_count ≠ some true := by
        intro hcon
        exact hh ((truthyOptBool_eq_true _).mpr hcon)
      simp [check_max_vote_count, hm, hh, hht]
  | some m =>
    by_cases hneg : m < 0
    · constructor
      · simp [check_max_vote_count, hm, hneg, errCount_addError_self,
          max_vote_count_positive_error]
      · simp [check_max_vote_count, hm, hneg, errCount_addError_self,
          max_vote_count_positive_error]
    · simp [check_max_vote_count, hm, hneg]

/-- Claim C5: the clean step adds the `max_selection_too_small` error to
`max_selection` exactly when both selection bounds are present and
`min_selection` exceeds `max_selection`, and adds a field error to
`min_selection` (same code, message parameterised by the number of choice
forms) exactly when `min_selection` is present and exceeds the number of
choice forms of the nested `choices` formset; bounds within range add no
such errors. -/
theorem C5_check_selection_bounds (d : QuestionData) (errs : Errors) :
    errCount (check_selection_bounds d errs) "max_selection"
        (some "max_selection_too_small") =
      errCount errs "max_selection" (some "max_selection_too_small") +
        (match d.min_selection, d.max_selection with
         | some mn, some mx => if mx < mn then 1 else 0
         | _, _ => 0) ∧
    errCount (check_selection_bounds d errs) "min_selection"
        (some "max_selection_too_small") =
      errCount errs "min_selection" (some "max_selection_too_small") +
        (match d.min_selection with
         | some mn => if (d.num_choices : Int) < mn then 1 else 0
         | none => 0) := by
  have hfields : ("min_selection" : String) ≠ "max_selection" := by decide
  rcases h1 : d.min_selection with _ | mn
  · rcases h2 : d.max_selection with _ | mx <;>
      simp [check_selection_bounds, h1, h2]
  · rcases h2 : d.max_selection with _ | mx
    · by_cases hc : (d.num_choices : Int) < mn
      · constructor
        · simp [check_selection_bounds, h1, h2, gt_iff_lt, hc,
            errCount_addError_other _ _ _ _ _ hfields.symm]
        · simp [check_selection_bounds, h1, h2, gt_iff_lt, hc,
            errCount_addError_self, min_selection_error]
      · simp [check_selection_bounds, h1, h2, gt_iff_lt, hc]
    · by_cases hb : mx < mn <;> by_cases hc : (d.num_choices : Int) < mn
      · constructor
        · simp [check_selection_bounds, h1, h2, gt_iff_lt, hb, hc,
            errCount_addError_self, errCount_addError_other _ _ _ _ _ hfields.symm,
            max_selection_error]
        · simp [check_selection_bounds, h1, h2, gt_iff_lt, hb, hc,
            errCount_addError_self, errCount_addError_other _ _ _ _ _ hfields,
            min_selection_error]
      · constructor
        · simp [check_selection_bounds, h1, h2, gt_iff_lt, hb, hc,
            errCount_addError_self, max_selection_error]
        · simp [check_selection_bounds, h1, h2, gt_iff_lt, hb, hc,
            errCount_addError_other _ _ _ _ _ hfields]
      · constructor
        · simp [check_selection_bounds, h1, h2, gt_iff_lt, hb, hc,
            errCount_addError_other _ _ _ _ _ hfields.symm]
        · simp [check_selection_bounds, h1, h2, gt_iff_lt, hb, hc,
            errCount_addError_self, min_selection_error]
      · simp [check_selection_bounds, h1, h2, gt_iff_lt, hb, hc]

/-- Claim C8: after `MaxVoteCountForm.__init__` the `max_vote_count`
widget is configured from the live value of `has_max_vote_count` (the
bound value when the form is bound, the initial value otherwise): it is
marked required when that value is truthy, and marked disabled with an
empty value when it is falsy; exactly one of the two configurations
applies. -/
theorem C8_max_vote_count_toggle (is_bound : Bool)
    (bound_value initial_value : Option Bool) :
    ((max_vote_count_form_init is_bound bound_value initial_value).2).required
        = truthyOptBool (get_field_value is_bound bound_value initial_value) ∧
    ((max_vote_count_form_init is_bound bound_value initial_value).2).disabled
        = !truthyOptBool (get_field_value is_bound bound_value initial_value) ∧
    ((max_vote_count_form_init is_bound bound_value initial_value).2).value
        = (if truthyOptBool (get_field_value is_bound bound_value initial_value)
           then none else some "") ∧
    ((max_vote_count_form_init is_bound bound_value initial_value).2).required
        = !((max_vote_count_form_init is_bound bound_value initial_value).2).disabled := by
  by_cases h : truthyOptBool (get_field_value is_bound bound_value initial_value) <;>
    simp [max_vote_count_form_init, h]

/-- Claim C9: `UserFilter.filter_count_gte` returns exactly the records
of the input queryset whose count of related rows under the filtered
relation is at least the threshold, and no others. -/
theorem C9_filter_count_gte (rel : List Nat) (queryset : List Nat)
    (value : Int) (user : Nat) :
    user ∈ filter_count_gte rel queryset value ↔
      user ∈ queryset ∧ value ≤ (annotate_count rel user : Int) := by
  simp [filter_count_gte, List.mem_filter, ge_iff_le]

/-! ### Claim C2: the duplicate-followers formset validation -/

theorem followers_have_duplicate_iff (can_delete : Bool)
    (forms : List FollowerForm) (seen : List (Option Nat)) :
    followers_have_duplicate can_delete seen forms = true ↔
      (∃ x ∈ nondeleted_followers can_delete forms, x ∈ seen) ∨
        ¬ (nondeleted_followers can_delete forms).Nodup := by
  induction forms generalizing seen with
  | nil => simp [followers_have_duplicate, nondeleted_followers]
  | cons f rest ih =>
    by_cases hd : (can_delete && f.marked_delete) = true
    · have hcons : nondeleted_followers can_delete (f :: rest)
          = nondeleted_followers can_delete rest := by
        unfold nondeleted_followers
        rw [List.filter_cons, hd]
        simp
      rw [hcons]
      simpa [followers_have_duplicate, hd] using ih seen
    · have hd' : (can_delete && f.marked_delete) = false := Bool.eq_false_iff.mpr hd
      have hcons : nondeleted_followers can_delete (f :: rest)
          = f.follower :: nondeleted_followers can_delete rest := by
        unfold nondeleted_followers
        rw [List.filter_cons, hd']
        simp
      rw [hcons]
      by_cases hmem : f.follower ∈ seen
      · simp only [followers_have_duplicate, hd, if_false, hmem, if_true,
          Bool.false_eq_true, ite_false, ite_true]
        constructor
        · intro _
          exact Or.inl ⟨f.follower, List.mem_cons_self _ _, hmem⟩
        · intro _
          trivial
      · simp only [followers_have_duplicate, hd, Bool.false_eq_true, ite_false,
          hmem, ite_true]
        rw [ih (f.follower :: seen)]
        simp only [List.nodup_cons, List.mem_cons, not_and_or, not_not]
        constructor
        · rintro (⟨x, hx, hxs | hxs⟩ | hnd)
          · exact Or.inr (Or.inl (hxs ▸ hx))
          · exact Or.inl ⟨x, Or.inr hx, hxs⟩
          · exact Or.inr (Or.inr hnd)
        · rintro (⟨x, hx | hx, hxs⟩ | hin | hnd)
          · exact absurd (hx ▸ hxs) hmem
          · exact Or.inl ⟨x, hx, Or.inr hxs⟩
          · exact Or.inl ⟨f.follower, hin, Or.inl rfl⟩
          · exact Or.inr hnd

/-- Claim C2 (code bug): the claim — like the spec — says a duplicate
follower yields exactly one non-field error with code `unique`, but the
code's `self.add_error(...)` does not exist on formsets, so validation
of a formset with a duplicate crashes with `AttributeError` instead.
The theorem: the clean crashes exactly when two or more non-deleted
child forms share a follower value, adds no error at all otherwise, and
crashes at the concrete failing input of two forms following user 7. -/
theorem C2_duplicate_followers (forms : List FollowerForm) (prior : List VError) :
    (¬ (nondeleted_followers true forms).Nodup ↔
      ∃ v, List.Duplicate v (nondeleted_followers true forms)) ∧
    qfollowers_clean true forms prior =
      (if (nondeleted_followers true forms).Nodup then some prior else none) ∧
    qfollowers_clean true
      [{ marked_delete := false, follower := some 7 },
       { marked_delete := false, follower := some 7 }] [] = none := by
  have hiff : followers_have_duplicate true [] forms = true ↔
      ¬ (nondeleted_followers true forms).Nodup := by
    simpa using followers_have_duplicate_iff true forms []
  refine ⟨List.exists_duplicate_iff_not_nodup.symm, ?_, rfl⟩
  unfold qfollowers_clean
  by_cases hdup : followers_have_duplicate true [] forms = true
  · rw [if_pos hdup, if_neg (hiff.mp hdup)]
  · have hnd : (nondeleted_followers true forms).Nodup := by
      by_contra hcon
      exact hdup (hiff.mpr hcon)
    rw [if_neg hdup, if_pos hnd]

/-! ### Claim C4: `FormSetForm.full_clean` -/

theorem lookupField_mem (errs : Errors) (k : String) (es : List VError)
    (h : lookupField errs k = some es) : (k, es) ∈ errs := by
  induction errs with
  | nil => simp [lookupField] at h
  | cons p rest ih =>
    obtain ⟨f, es'⟩ := p
    by_cases hf : f = k
    · subst hf
      simp only [lookupField, if_pos, Option.some.injEq] at h
      subst h
      exact List.mem_cons_self _ _
    · simp only [lookupField, if_neg hf] at h
      exact List.mem_cons_of_mem _ (ih h)

/-- Claim C4: after `FormSetForm.full_clean`, no error remains keyed under
the parent-instance field (the spurious required-parent-key error is
suppressed), while the errors under every other field are unchanged.
The hypotheses state the `ErrorDict` invariants: keys are distinct and no
key holds an empty error list. -/
theorem C4_full_clean_suppression (errs : Errors) (pif : String)
    (hnd : (errs.map Prod.fst).Nodup)
    (hne : ∀ p ∈ errs, p.1 = pif → p.2 ≠ []) :
    lookupField (formsetform_full_clean errs pif) pif = none ∧
    ∀ field, field ≠ pif →
      lookupField (formsetform_full_clean errs pif) field = lookupField errs field := by
  cases hlk : lookupField errs pif with
  | none =>
    have hid : formsetform_full_clean errs pif = errs := by
      unfold formsetform_full_clean
      rw [hlk]
    rw [hid]
    exact ⟨hlk, fun _ _ => rfl⟩
  | some es =>
    have hes : es ≠ [] := hne _ (lookupField_mem errs pif es hlk) rfl
    have hid : formsetform_full_clean errs pif = eraseKey errs pif := by
      unfold formsetform_full_clean
      rw [hlk]
      exact if_neg hes
    rw [hid]
    exact ⟨lookupField_eraseKey_self errs pif hnd,
      fun field hf => lookupField_eraseKey_other errs pif field hf⟩

/-- The error state of a bound attachment child form whose base
validation rejected both the parent key and the file field. -/
def attachment_errors_example : Errors :=
  [("question", [{ message := "This field is required.", code := some "required" }]),
   ("file", [{ message := "This field is required.", code := some "required" }])]

/-- Witness for C4 at a concrete error state: the parent-key error is
popped, the `file` error survives untouched. -/
theorem C4_full_clean_suppression_witness :
    lookupField (formsetform_full_clean attachment_errors_example "question")
        "question" = none ∧
    lookupField (formsetform_full_clean attachment_errors_example "question")
        "file" = lookupField attachment_errors_example "file" := by
  have h := C4_full_clean_suppression attachment_errors_example "question"
    (by decide) (by decide)
  exact ⟨h.1, h.2 "file" (by decide)⟩

/-! ### Claim C1: the aggregate non-field error of `QuestionForm.clean`

The four checks only ever attach errors to the fields `vote_end`,
`max_vote_count`, `min_selection` and `max_selection`, so the non-field
error list is untouched until the aggregation step. -/

theorem lookupField_check_vote_end (d : QuestionData) (errs : Errors)
    (g : String) (hg : g ≠ "vote_end") :
    lookupField (check_vote_end d errs) g = lookupField errs g := by
  rcases h1 : d.vote_start with _ | vs <;> rcases h2 : d.vote_end with _ | ve <;>
    simp only [check_vote_end, h1, h2]
  split
  · exact lookupField_addError_other _ _ _ _ hg
  · rfl

theorem lookupField_check_max_vote_count (d : QuestionData) (errs : Errors)
    (g : String) (hg : g ≠ "max_vote_count") :
    lookupField (check_max_vote_count d errs) g = lookupField errs g := by
  rcases hm : d.max_vote_count with _ | m
  · simp only [check_max_vote_count, hm]
    split
    · exact lookupField_addError_other _ _ _ _ hg
    · rfl
  · simp [check_max_vote_count, hm]
    split
    · exact lookupField_addError_other _ _ _ _ hg
    · rfl

theorem lookupField_check_selection_bounds (d : QuestionData) (errs : Errors)
    (g : String) (hg1 : g ≠ "max_selection") (hg2 : g ≠ "min_selection") :
    lookupField (check_selection_bounds d errs) g = lookupField errs g := by
  rcases h1 : d.min_selection with _ | mn
  · rcases h2 : d.max_selection with _ | mx <;> simp [check_selection_bounds, h1, h2]
  · rcases h2 : d.max_selection with _ | mx
    · simp [check_selection_bounds, h1, h2]
      split
      · exact lookupField_addError_other _ _ _ _ hg2
      · rfl
    · simp [check_selection_bounds, h1, h2]
      split
      · rw [lookupField_addError_other _ _ _ _ hg2]
        split
        · exact lookupField_addError_other _ _ _ _ hg1
        · rfl
      · split
        · exact lookupField_addError_other _ _ _ _ hg1
        · rfl

theorem lookupField_check_total_vote_count (d : QuestionData) (errs errs1 : Errors)
    (g : String) (hg : g ≠ "max_vote_count")
    (h : check_total_vote_count d errs = some errs1) :
    lookupField errs1 g = lookupField errs g := by
  unfold check_total_vote_count at h
  split at h
  · injection h with h
    subst h
    rfl
  · split at h
    · split at h
      · split at h
        · injection h with h
          subst h
          exact lookupField_addError_other _ _ _ _ hg
        · injection h with h
          subst h
          rfl
      · injection h with h
        subst h
        rfl
    · split at h
      · exact absurd h (by simp)
      · injection h with h
        subst h
        rfl
    · injection h with h
      subst h
      rfl

/-! ### Bridges between the live-state checks and the snapshot checks

Each `_run` function reads its inputs at entry, so its error component
is the snapshot check applied at its own entry state; its cleaned-data
component differs from the entry state only by the deletions performed
by `add_error`. -/

theorem del_cleaned_vote_end (d : QuestionData) :
    del_cleaned d "vote_end" = { d with vote_end := none } := rfl

theorem del_cleaned_max_vote_count (d : QuestionData) :
    del_cleaned d "max_vote_count" = { d with max_vote_count := none } := rfl

theorem del_cleaned_min_selection (d : QuestionData) :
    del_cleaned d "min_selection" = { d with min_selection := none } := rfl

theorem del_cleaned_max_selection (d : QuestionData) :
    del_cleaned d "max_selection" = { d with max_selection := none } := rfl

theorem check_vote_end_run_snd (s : QuestionData × Errors) :
    (check_vote_end_run s).2 = check_vote_end s.1 s.2 := by
  unfold check_vote_end_run check_vote_end question_add_error
  rcases h1 : s.1.vote_start with _ | vs <;> rcases h2 : s.1.vote_end with _ | ve <;>
    simp only [h1, h2]
  split <;> rfl

theorem check_max_vote_count_run_snd (s : QuestionData × Errors) :
    (check_max_vote_count_run s).2 = check_max_vote_count s.1 s.2 := by
  unfold check_max_vote_count_run check_max_vote_count question_add_error
  rcases hm : s.1.max_vote_count with _ | m <;> simp only [hm] <;>
    split_ifs <;> rfl

theorem check_selection_bounds_run_snd (s : QuestionData × Errors) :
    (check_selection_bounds_run s).2 = check_selection_bounds s.1 s.2 := by
  unfold check_selection_bounds_run check_selection_bounds question_add_error
  rcases h1 : s.1.min_selection with _ | mn <;>
    rcases h2 : s.1.max_selection with _ | mx <;>
    simp only [h1, h2] <;> split_ifs <;> rfl

theorem check_total_vote_count_run_snd (s : QuestionData × Errors) :
    Option.map Prod.snd (check_total_vote_count_run s)
      = check_total_vote_count s.1 s.2 := by
  unfold check_total_vote_count_run check_total_vote_count question_add_error
  rcases hm : s.1.max_vote_count with _ | m <;>
    rcases ht : s.1.total_vote_count with _ | t <;>
    simp only [hm, ht] <;> split_ifs <;> rfl

theorem check_vote_end_run_fst (s : QuestionData × Errors) :
    (check_vote_end_run s).1.has_max_vote_count = s.1.has_max_vote_count ∧
    (check_vote_end_run s).1.max_vote_count = s.1.max_vote_count ∧
    (check_vote_end_run s).1.total_vote_count = s.1.total_vote_count ∧
    formsets_total_error_count (check_vote_end_run s).1
      = formsets_total_error_count s.1 := by
  unfold check_vote_end_run question_add_error
  rcases h1 : s.1.vote_start with _ | vs <;> rcases h2 : s.1.vote_end with _ | ve <;>
      simp only [h1, h2, del_cleaned_vote_end] <;>
    first
      | exact ⟨trivial, trivial, trivial, trivial⟩
      | exact ⟨rfl, rfl, rfl, rfl⟩
      | (split_ifs <;> exact ⟨rfl, rfl, rfl, rfl⟩)

theorem check_max_vote_count_run_fst (s : QuestionData × Errors) :
    (check_max_vote_count_run s).1.has_max_vote_count = s.1.has_max_vote_count ∧
    (check_max_vote_count_run s).1.total_vote_count = s.1.total_vote_count ∧
    formsets_total_error_count (check_max_vote_count_run s).1
      = formsets_total_error_count s.1 ∧
    (check_max_vote_count_run s).1.max_vote_count =
      (match s.1.max_vote_count with
       | some m => if m < 0 then none else some m
       | none => none) := by
  unfold check_max_vote_count_run question_add_error
  rcases hm : s.1.max_vote_count with _ | m
  · simp only [hm, del_cleaned_max_vote_count]
    split_ifs <;>
      first
        | exact ⟨rfl, rfl, rfl, rfl⟩
        | exact ⟨rfl, rfl, rfl, hm⟩
  · have hc : ¬ ((some m : Option Int) = none ∧
        truthyOptBool s.1.has_max_vote_count) := by simp
    simp only [hm, del_cleaned_max_vote_count, if_neg hc]
    split_ifs <;>
      first
        | exact ⟨rfl, rfl, rfl, rfl⟩
        | exact ⟨rfl, rfl, rfl, hm⟩

theorem check_selection_bounds_run_fst (s : QuestionData × Errors) :
    (check_selection_bounds_run s).1.has_max_vote_count = s.1.has_max_vote_count ∧
    (check_selection_bounds_run s).1.max_vote_count = s.1.max_vote_count ∧
    (check_selection_bounds_run s).1.total_vote_count = s.1.total_vote_count ∧
    formsets_total_error_count (check_selection_bounds_run s).1
      = formsets_total_error_count s.1 := by
  unfold check_selection_bounds_run question_add_error
  rcases h1 : s.1.min_selection with _ | mn <;>
      rcases h2 : s.1.max_selection with _ | mx <;>
      simp only [h1, h2, del_cleaned_min_selection, del_cleaned_max_selection] <;>
    first
      | exact ⟨trivial, trivial, trivial, trivial⟩
      | exact ⟨rfl, rfl, rfl, rfl⟩
      | (split_ifs <;> exact ⟨rfl, rfl, rfl, rfl⟩)

theorem check_total_vote_count_run_fst (s s' : QuestionData × Errors)
    (h : check_total_vote_count_run s = some s') :
    s'.1.has_max_vote_count = s.1.has_max_vote_count ∧
    s'.1.total_vote_count = s.1.total_vote_count ∧
    formsets_total_error_count s'.1 = formsets_total_error_count s.1 := by
  unfold check_total_vote_count_run question_add_error at h
  split at h
  · injection h with h
    subst h
    exact ⟨rfl, rfl, rfl⟩
  · split at h
    · split at h
      · split at h
        · injection h with h
          subst h
          exact ⟨rfl, rfl, rfl⟩
        · injection h with h
          subst h
          exact ⟨rfl, rfl, rfl⟩
      · injection h with h
        subst h
        exact ⟨rfl, rfl, rfl⟩
    · split at h
      · exact absurd h (by simp)
      · injection h with h
        subst h
        exact ⟨rfl, rfl, rfl⟩
    · injection h with h
      subst h
      exact ⟨rfl, rfl, rfl⟩

theorem nonfield_check_vote_end_run (s : QuestionData × Errors) :
    lookupField (check_vote_end_run s).2 NON_FIELD_ERRORS
      = lookupField s.2 NON_FIELD_ERRORS := by
  rw [check_vote_end_run_snd]
  exact lookupField_check_vote_end s.1 s.2 _ (by decide)

theorem nonfield_check_max_vote_count_run (s : QuestionData × Errors) :
    lookupField (check_max_vote_count_run s).2 NON_FIELD_ERRORS
      = lookupField s.2 NON_FIELD_ERRORS := by
  rw [check_max_vote_count_run_snd]
  exact lookupField_check_max_vote_count s.1 s.2 _ (by decide)

theorem nonfield_check_selection_bounds_run (s : QuestionData × Errors) :
    lookupField (check_selection_bounds_run s).2 NON_FIELD_ERRORS
      = lookupField s.2 NON_FIELD_ERRORS := by
  rw [check_selection_bounds_run_snd]
  exact lookupField_check_selection_bounds s.1 s.2 _ (by decide) (by decide)

theorem nonfield_check_total_vote_count_run (s s' : QuestionData × Errors)
    (h : check_total_vote_count_run s = some s') :
    lookupField s'.2 NON_FIELD_ERRORS = lookupField s.2 NON_FIELD_ERRORS := by
  have hb : check_total_vote_count s.1 s.2 = some s'.2 := by
    rw [← check_total_vote_count_run_snd, h]
    rfl
  exact lookupField_check_total_vote_count s.1 s.2 s'.2 _ (by decide) hb

theorem lookupField_question_check_all_nonfield (d : QuestionData)
    (errs : Errors) (s : QuestionData × Errors)
    (h : question_check_all d errs = some s) :
    lookupField s.2 NON_FIELD_ERRORS = lookupField errs NON_FIELD_ERRORS := by
  unfold question_check_all at h
  rw [nonfield_check_total_vote_count_run _ _ h,
    nonfield_check_selection_bounds_run, nonfield_check_max_vote_count_run,
    nonfield_check_vote_end_run]

theorem formsets_question_check_all (d : QuestionData) (errs : Errors)
    (s : QuestionData × Errors) (h : question_check_all d errs = some s) :
    formsets_total_error_count s.1 = formsets_total_error_count d := by
  unfold question_check_all at h
  rw [(check_total_vote_count_run_fst _ _ h).2.2,
    (check_selection_bounds_run_fst _).2.2.2,
    (check_max_vote_count_run_fst _).2.2.1,
    (check_vote_end_run_fst _).2.2.2]

/-- Claim C1: given the state `s` left by the four checks (with no
aggregate-shaped non-field error present before the clean step, as base
validation never produces one), `QuestionForm.clean` surfaces the
aggregate non-field error if and only if an error exists somewhere in
the tree — on the form itself or in a nested formset — and the count
carried by that error is the number of the form's error keys plus every
nested formset's total error count (unchanged from the bound form's),
computed before the aggregate error is added. -/
theorem C1_aggregate_error (d : QuestionData) (errs0 : Errors)
    (hagg : ∀ m, ¬ memError errs0 NON_FIELD_ERRORS (aggregate_error m))
    (s : QuestionData × Errors) (hchecks : question_check_all d errs0 = some s) :
    formsets_total_error_count s.1 = formsets_total_error_count d ∧
    question_clean d errs0 =
      some (if 0 < s.2.length + formsets_total_error_count s.1 then
              addError s.2 NON_FIELD_ERRORS
                (aggregate_error (s.2.length + formsets_total_error_count s.1))
            else s.2) ∧
    ∀ res, question_clean d errs0 = some res →
      (((∃ m, memError res NON_FIELD_ERRORS (aggregate_error m)) ↔
          (s.2 ≠ [] ∨ 0 < formsets_total_error_count s.1)) ∧
        ∀ m, memError res NON_FIELD_ERRORS (aggregate_error m) →
          m = s.2.length + formsets_total_error_count s.1) := by
  have hkeep : lookupField s.2 NON_FIELD_ERRORS = lookupField errs0 NON_FIELD_ERRORS :=
    lookupField_question_check_all_nonfield d errs0 s hchecks
  have hmain : question_clean d errs0 =
      some (if 0 < s.2.length + formsets_total_error_count s.1 then
              addError s.2 NON_FIELD_ERRORS
                (aggregate_error (s.2.length + formsets_total_error_count s.1))
            else s.2) := by
    unfold question_clean
    rw [hchecks]
    simp only [gt_iff_lt, apply_ite some]
  refine ⟨formsets_question_check_all d errs0 s hchecks, hmain, ?_⟩
  intro res hres
  rw [hmain] at hres
  injection hres with hres
  subst hres
  by_cases hn : 0 < s.2.length + formsets_total_error_count s.1
  · rw [if_pos hn]
    have hlook : lookupField
        (addError s.2 NON_FIELD_ERRORS
          (aggregate_error (s.2.length + formsets_total_error_count s.1)))
        NON_FIELD_ERRORS =
        some ((lookupField s.2 NON_FIELD_ERRORS).getD [] ++
          [aggregate_error (s.2.length + formsets_total_error_count s.1)]) :=
      lookupField_addError_self _ _ _
    constructor
    · constructor
      · intro _
        rcases Nat.eq_zero_or_pos (formsets_total_error_count s.1) with hfs | hfs
        · left
          have hpos : 0 < s.2.length := by omega
          exact List.length_pos.mp hpos
        · right
          exact hfs
      · intro _
        exact ⟨s.2.length + formsets_total_error_count s.1, _, hlook, by simp⟩
    · intro m hm
      obtain ⟨es, hes, hmem⟩ := hm
      rw [hlook] at hes
      injection hes with hes
      subst hes
      rcases List.mem_append.mp hmem with hmem | hmem
      · exfalso
        apply hagg m
        rcases hlk : lookupField s.2 NON_FIELD_ERRORS with _ | es1
        · rw [hlk] at hmem
          simp at hmem
        · rw [hlk] at hmem
          exact ⟨es1, by rw [← hkeep]; exact hlk, by simpa using hmem⟩
      · have heq : aggregate_error m
            = aggregate_error (s.2.length + formsets_total_error_count s.1) := by
          simpa using hmem
        have := congrArg VError.params heq
        simpa [aggregate_error] using this
  · rw [if_neg hn]
    have hlen : s.2 = [] := by
      have h0 : s.2.length = 0 := by omega
      exact List.length_eq_zero.mp h0
    constructor
    · constructor
      · rintro ⟨m, es, hes, hmem⟩
        rw [hlen] at hes
        simp [lookupField] at hes
      · rintro (hne | hpos)
        · exact absurd hlen hne
        · omega
    · rintro m ⟨es, hes, hmem⟩
      rw [hlen] at hes
      simp [lookupField] at hes

/-- A bound form whose only validation failure is `vote_end` before
`vote_start`. -/
def questionDataLateEnd : QuestionData :=
  { vote_start := some 5, vote_end := some 3, has_max_vote_count := none,
    max_vote_count := none, total_vote_count := none, min_selection := none,
    max_selection := none, num_choices := 2, attachments_error_count := 0,
    q_followers_error_count := 0, choices_error_count := 0 }

/-- Witness for C1 at a concrete input: with one field error and no
formset errors, the aggregate non-field error is present (the check also
deleted `vote_end` from the cleaned data). -/
theorem C1_aggregate_error_witness :
    ∃ res, question_clean questionDataLateEnd [] = some res ∧
      ((∃ m, memError res NON_FIELD_ERRORS (aggregate_error m)) ↔
        (([("vote_end", [vote_end_error])] : Errors) ≠ [] ∨
          0 < formsets_total_error_count
            { questionDataLateEnd with vote_end := none })) := by
  have h := C1_aggregate_error questionDataLateEnd []
    (by rintro m ⟨es, hes, _⟩; simp [lookupField] at hes)
    ({ questionDataLateEnd with vote_end := none },
      [("vote_end", [vote_end_error])]) rfl
  exact ⟨_, h.2.1, (h.2.2 _ h.2.1).1⟩

/-! ### Claim C6: the total-vote-count check -/

theorem errCount_eq_of_lookup {e1 e2 : Errors} (f : String) (c : Option String)
    (h : lookupField e1 f = lookupField e2 f) :
    errCount e1 f c = errCount e2 f c := by
  simp [errCount, h]

theorem check_max_vote_count_tvc (d : QuestionData) (e : Errors) :
    errCount (check_max_vote_count d e) "max_vote_count"
        (some "total_vote_count_too_big") =
      errCount e "max_vote_count" (some "total_vote_count_too_big") := by
  rcases hm : d.max_vote_count with _ | m
  · by_cases hh : truthyOptBool d.has_max_vote_count
    · simp [check_max_vote_count, hm, hh, errCount_addError_self,
        max_vote_count_required_error]
    · simp [check_max_vote_count, hm, hh]
  · by_cases hneg : m < 0
    · simp [check_max_vote_count, hm, hneg, errCount_addError_self,
        max_vote_count_positive_error]
    · simp [check_max_vote_count, hm, hneg]

/-- A concrete bound form: `has_max_vote_count` is true, the cleaned
`max_vote_count` is `0` and the cleaned `total_vote_count` is `5`. -/
def questionDataZeroMax : QuestionData :=
  { vote_start := none, vote_end := none, has_max_vote_count := some true,
    max_vote_count := some 0, total_vote_count := some 5,
    min_selection := none, max_selection := none, num_choices := 0,
    attachments_error_count := 0, q_followers_error_count := 0,
    choices_error_count := 0 }

/-- Claim C6 counterexample: with `has_max_vote_count` true,
`max_vote_count = 0` and `total_vote_count = 5`, the total exceeds the
maximum yet the checks of the clean step add no error at all (the Python
guard `if max_vote_count and ...` treats `0` as falsy), contradicting
the claim that the error is added whenever the total exceeds the
maximum. -/
theorem C6_counterexample :
    questionDataZeroMax.has_max_vote_count = some true ∧
    questionDataZeroMax.max_vote_count = some 0 ∧
    questionDataZeroMax.total_vote_count = some 5 ∧
    (0 : Int) < 5 ∧
    question_check_all questionDataZeroMax [] = some (questionDataZeroMax, []) ∧
    question_clean questionDataZeroMax [] = some [] := by
  refine ⟨rfl, rfl, rfl, by norm_num, rfl, rfl⟩

/-- Claim C6 (amended): when `has_max_vote_count` is not true the checks
perform no total-versus-max comparison and add no
`total_vote_count_too_big` error; when it is true and `total_vote_count`
is present, that error is added exactly once if and only if the cleaned
`max_vote_count` is present and strictly positive and `total_vote_count`
exceeds it — a zero `max_vote_count` is falsy for the Python guard, and
a negative one was deleted from `cleaned_data` by
`check_max_vote_count`'s `add_error` before `check_total_vote_count`
re-reads the field. -/
theorem C6_check_total_vote_count (d : QuestionData) (errs : Errors) :
    (d.has_max_vote_count ≠ some true →
      ∃ s, question_check_all d errs = some s ∧
        errCount s.2 "max_vote_count" (some "total_vote_count_too_big") =
          errCount errs "max_vote_count" (some "total_vote_count_too_big")) ∧
    (∀ t : Int, d.has_max_vote_count = some true → d.total_vote_count = some t →
      ∃ s, question_check_all d errs = some s ∧
        errCount s.2 "max_vote_count" (some "total_vote_count_too_big") =
          errCount errs "max_vote_count" (some "total_vote_count_too_big") +
            (match d.max_vote_count with
             | some m => if 0 < m ∧ m < t then 1 else 0
             | none => 0)) := by
  obtain ⟨s3, hs3⟩ : ∃ s3, check_selection_bounds_run
      (check_max_vote_count_run (check_vote_end_run (d, errs))) = s3 := ⟨_, rfl⟩
  have hqca : question_check_all d errs = check_total_vote_count_run s3 := by
    unfold question_check_all
    rw [hs3]
  have hhas3 : s3.1.has_max_vote_count = d.has_max_vote_count := by
    rw [← hs3, (check_selection_bounds_run_fst _).1,
      (check_max_vote_count_run_fst _).1, (check_vote_end_run_fst _).1]
  have htot3 : s3.1.total_vote_count = d.total_vote_count := by
    rw [← hs3, (check_selection_bounds_run_fst _).2.2.1,
      (check_max_vote_count_run_fst _).2.1, (check_vote_end_run_fst _).2.2.1]
  have hmax3 : s3.1.max_vote_count =
      (match d.max_vote_count with
       | some m => if m < 0 then none else some m
       | none => none) := by
    rw [← hs3, (check_selection_bounds_run_fst _).2.1,
      (check_max_vote_count_run_fst _).2.2.2, (check_vote_end_run_fst _).2.1]
  have hcnt3 : errCount s3.2 "max_vote_count" (some "total_vote_count_too_big")
      = errCount errs "max_vote_count" (some "total_vote_count_too_big") := by
    rw [← hs3, check_selection_bounds_run_snd]
    refine (errCount_eq_of_lookup _ _
      (lookupField_check_selection_bounds _ _ _ (by decide) (by decide))).trans ?_
    rw [check_max_vote_count_run_snd, check_max_vote_count_tvc,
      check_vote_end_run_snd]
    exact errCount_eq_of_lookup _ _
      (lookupField_check_vote_end _ _ _ (by decide))
  constructor
  · intro hne
    have hh : truthyOptBool d.has_max_vote_count = false :=
      Bool.eq_false_iff.mpr (fun hcon => hne ((truthyOptBool_eq_true _).mp hcon))
    refine ⟨s3, ?_, hcnt3⟩
    rw [hqca]
    simp [check_total_vote_count_run, hhas3, hh]
  · intro t hhas ht
    have htr : truthyOptBool d.has_max_vote_count = true :=
      (truthyOptBool_eq_true _).mpr hhas
    rcases hm : d.max_vote_count with _ | m
    · refine ⟨s3, ?_, ?_⟩
      · rw [hqca]
        simp [check_total_vote_count_run, hhas3, htr, hmax3, hm]
      · rw [hcnt3]
        simp
    · by_cases hneg : m < 0
      · refine ⟨s3, ?_, ?_⟩
        · rw [hqca]
          simp [check_total_vote_count_run, hhas3, htr, hmax3, hm, hneg]
        · rw [hcnt3]
          have : ¬ (0 < m ∧ m < t) := by omega
          simp [this]
      · by_cases hz : m = 0
        · refine ⟨s3, ?_, ?_⟩
          · rw [hqca]
            subst hz
            simp [check_total_vote_count_run, hhas3, htr, hmax3, hm, htot3, ht, hneg]
          · rw [hcnt3]
            subst hz
            simp
        · have hpos : 0 < m := by omega
          by_cases hlt : m < t
          · refine ⟨question_add_error s3 "max_vote_count" total_vote_count_error,
              ?_, ?_⟩
            · rw [hqca]
              simp [check_total_vote_count_run, hhas3, htr, hmax3, hm, htot3, ht,
                hneg, hz, gt_iff_lt, hlt]
            · have hq : (question_add_error s3 "max_vote_count"
                  total_vote_count_error).2
                  = addError s3.2 "max_vote_count" total_vote_count_error := rfl
              rw [hq, errCount_addError_self, hcnt3]
              simp [total_vote_count_error, hpos, hlt]
          · refine ⟨s3, ?_, ?_⟩
            · rw [hqca]
              simp [check_total_vote_count_run, hhas3, htr, hmax3, hm, htot3, ht,
                hneg, hz, gt_iff_lt, hlt]
            · rw [hcnt3]
              have : ¬ (0 < m ∧ m < t) := by
                intro hcon
                exact hlt hcon.2
              simp [this]

/-- A concrete bound form for exercising the amended C6 statement:
`has_max_vote_count` true, `max_vote_count = 2`, `total_vote_count = 5`. -/
def questionDataSmallMax : QuestionData :=
  { questionDataZeroMax with max_vote_count := some 2 }

/-- Witness for the amended C6 theorem at a concrete input: with
`max_vote_count = 2` and `total_vote_count = 5` exactly one
`total_vote_count_too_big` error is added by the checks. -/
theorem C6_check_total_vote_count_witness :
    ∃ s, question_check_all questionDataSmallMax [] = some s ∧
      errCount s.2 "max_vote_count" (some "total_vote_count_too_big") =
        errCount ([] : Errors) "max_vote_count" (some "total_vote_count_too_big") +
          (match questionDataSmallMax.max_vote_count with
           | some m => if 0 < m ∧ m < (5 : Int) then 1 else 0
           | none => 0) :=
  (C6_check_total_vote_count questionDataSmallMax []).2 5 rfl rfl

/-! ### Claim C10: `FileS3UploadField.clean` -/

theorem findSplit_sound (sep : List Char) (l a b : List Char)
    (h : findSplit sep l = some (a, b)) : l = a ++ sep ++ b := by
  induction l generalizing a b with
  | nil =>
    by_cases hs : sep = ([] : List Char)
    · simp only [findSplit, hs, if_pos, Option.some.injEq, Prod.mk.injEq] at h
      obtain ⟨ha, hb⟩ := h
      subst ha
      subst hb
      simp [hs]
    · simp [findSplit, hs] at h
  | cons c rest ih =>
    rw [findSplit] at h
    by_cases hp : sep.isPrefixOf (c :: rest)
    · rw [if_pos hp] at h
      obtain ⟨ha, hb⟩ : ([] : List Char) = a ∧ (c :: rest).drop sep.length = b := by
        simpa using h
      subst ha
      subst hb
      obtain ⟨t, ht⟩ := List.isPrefixOf_iff_prefix.mp hp
      rw [← ht]
      simp [List.drop_left]
    · rw [if_neg hp] at h
      cases hrec : findSplit sep rest with
      | none =>
        rw [hrec] at h
        exact absurd h (by simp)
      | some p =>
        obtain ⟨a1, b1⟩ := p
        rw [hrec] at h
        obtain ⟨ha, hb⟩ : c :: a1 = a ∧ b1 = b := by simpa using h
        subst ha
        subst hb
        have hr := ih a1 b1 hrec
        simp [hr]

theorem findSplit_isSome (sep l a b : List Char) (hl : l = a ++ sep ++ b) :
    (findSplit sep l).isSome := by
  induction a generalizing l with
  | nil =>
    subst hl
    simp only [List.nil_append]
    cases hsb : sep ++ b with
    | nil =>
      have hs : sep = [] := List.append_eq_nil.mp hsb |>.1
      rw [findSplit, if_pos hs]
      simp
    | cons c rest =>
      rw [findSplit]
      have hp : sep.isPrefixOf (c :: rest) := by
        rw [← hsb]
        exact List.isPrefixOf_iff_prefix.mpr ⟨b, rfl⟩
      rw [if_pos hp]
      simp
  | cons x a1 ih =>
    subst hl
    simp only [List.cons_append, List.append_assoc]
    rw [findSplit]
    by_cases hp : sep.isPrefixOf (x :: (a1 ++ (sep ++ b)))
    · rw [if_pos hp]
      simp
    · rw [if_neg hp]
      have hrec := ih (a1 ++ sep ++ b) rfl
      rw [List.append_assoc] at hrec
      cases hfs : findSplit sep (a1 ++ (sep ++ b)) with
      | none =>
        rw [hfs] at hrec
        simp at hrec
      | some p =>
        obtain ⟨a2, b2⟩ := p
        simp

theorem findSplit_min (sep l p r : List Char) (h : findSplit sep l = some (p, r)) :
    ∀ a b : List Char, l = a ++ sep ++ b → p.length ≤ a.length := by
  induction l generalizing p r with
  | nil =>
    intro a b hl
    by_cases hs : sep = ([] : List Char)
    · simp only [findSplit, hs, if_pos, Option.some.injEq, Prod.mk.injEq] at h
      obtain ⟨ha, _⟩ := h
      subst ha
      simp
    · simp [findSplit, hs] at h
  | cons c rest ih =>
    intro a b hl
    rw [findSplit] at h
    by_cases hp : sep.isPrefixOf (c :: rest)
    · rw [if_pos hp] at h
      obtain ⟨ha, _⟩ : ([] : List Char) = p ∧ (c :: rest).drop sep.length = r := by
        simpa using h
      subst ha
      simp
    · rw [if_neg hp] at h
      cases hrec : findSplit sep rest with
      | none =>
        rw [hrec] at h
        exact absurd h (by simp)
      | some q =>
        obtain ⟨p1, r1⟩ := q
        rw [hrec] at h
        obtain ⟨hp1, hr1⟩ : c :: p1 = p ∧ r1 = r := by simpa using h
        subst hp1
        subst hr1
        cases a with
        | nil =>
          exfalso
          apply hp
          refine List.isPrefixOf_iff_prefix.mpr ⟨b, ?_⟩
          simpa using hl.symm
        | cons x a1 =>
          have hx : c = x ∧ rest = a1 ++ sep ++ b := by
            simpa using hl
          have := ih p1 r1 hrec a1 b hx.2
          simp only [List.length_cons]
          omega

theorem suffix_of_first_split (sep l p r a b : List Char)
    (h1 : l = p ++ sep ++ r) (h2 : l = a ++ sep ++ b)
    (hle : p.length ≤ a.length) : b <:+ r := by
  have hr : l.drop (p.length + sep.length) = r := by
    rw [h1, ← List.length_append]
    exact List.drop_left _ _
  have hb : l.drop (a.length + sep.length) = b := by
    rw [h2, ← List.length_append]
    exact List.drop_left _ _
  have hbr : b = r.drop (a.length + sep.length - (p.length + sep.length)) := by
    rw [← hr, List.drop_drop, ← hb]
    congr 1
    omega
  rw [hbr]
  exact List.drop_suffix _ _

/-- Claim C10: the cleaning of an S3 upload URL is total only under a
containment precondition.  A falsy cleaned URL yields the empty string;
for a non-empty URL (given nonempty bucket and destination settings, as
Python's `split` and `file_dir[-1]` require) the extraction succeeds
exactly when the URL contains the bucket name followed later by the
slash-terminated destination directory; otherwise the missing `[1]`
element raises. -/
theorem C10_s3_clean_total_iff (url bucket dest_key : List Char)
    (_hb : bucket ≠ []) (hd : dest_key ≠ []) :
    s3_clean [] bucket dest_key = some [] ∧
    ((s3_clean url bucket dest_key).isSome ↔
      (url = [] ∨ ∃ a b c : List Char,
        url = a ++ bucket ++ b ++ withSlash dest_key ++ c)) := by
  refine ⟨by simp [s3_clean], ?_⟩
  by_cases hu : url = []
  · subst hu
    simp [s3_clean]
  · rw [s3_clean, if_neg hu, if_neg hd]
    constructor
    · intro hsome
      cases h1 : findSplit bucket url with
      | none =>
        rw [h1] at hsome
        simp at hsome
      | some pr =>
        obtain ⟨p, rest⟩ := pr
        rw [h1] at hsome
        cases h2 : findSplit (withSlash dest_key) rest with
        | none =>
          simp [h2] at hsome
        | some qf =>
          obtain ⟨q, fname⟩ := qf
          right
          have e1 := findSplit_sound bucket url p rest h1
          have e2 := findSplit_sound (withSlash dest_key) rest q fname h2
          refine ⟨p, q, fname, ?_⟩
          rw [e1, e2]
          simp [List.append_assoc]
    · rintro (hcon | ⟨a, b, c, hurl⟩)
      · exact absurd hcon hu
      · have hurl1 : url = a ++ bucket ++ (b ++ withSlash dest_key ++ c) := by
          rw [hurl]
          simp [List.append_assoc]
        have h1some := findSplit_isSome bucket url a (b ++ withSlash dest_key ++ c) hurl1
        cases h1 : findSplit bucket url with
        | none =>
          rw [h1] at h1some
          simp at h1some
        | some pr =>
          obtain ⟨p, rest⟩ := pr
          have hle := findSplit_min bucket url p rest h1 a
            (b ++ withSlash dest_key ++ c) hurl1
          have hsound := findSplit_sound bucket url p rest h1
          have hsfx : (b ++ withSlash dest_key ++ c) <:+ rest :=
            suffix_of_first_split bucket url p rest a
              (b ++ withSlash dest_key ++ c) hsound hurl1 hle
          obtain ⟨x, hx⟩ := hsfx
          have hrest : rest = (x ++ b) ++ withSlash dest_key ++ c := by
            rw [← hx]
            simp [List.append_assoc]
          have h2some := findSplit_isSome (withSlash dest_key) rest (x ++ b) c hrest
          cases h2 : findSplit (withSlash dest_key) rest with
          | none =>
            rw [h2] at h2some
            simp at h2some
          | some qf =>
            obtain ⟨q, fname⟩ := qf
            simp [h2]

/-- Witness for C10 at concrete settings and URL: bucket `bk`, destination
key `d`, URL `xbkyd/f`. -/
theorem C10_s3_clean_total_iff_witness :
    (['b', 'k'] : List Char) ≠ [] ∧ (['d'] : List Char) ≠ [] ∧
    (s3_clean [] ['b', 'k'] ['d'] = some [] ∧
      ((s3_clean ['x', 'b', 'k', 'y', 'd', '/', 'f'] ['b', 'k'] ['d']).isSome ↔
        (['x', 'b', 'k', 'y', 'd', '/', 'f'] = ([] : List Char) ∨
          ∃ a b c : List Char,
            ['x', 'b', 'k', 'y', 'd', '/', 'f']
              = a ++ ['b', 'k'] ++ b ++ withSlash ['d'] ++ c))) :=
  ⟨by decide, by decide,
    C10_s3_clean_total_iff ['x', 'b', 'k', 'y', 'd', '/', 'f'] ['b', 'k'] ['d']
      (by decide) (by decide)⟩
